import Mathlib

/-!
Shallow embedding of the paper-trading engine in `src/main.py`.

Conventions:
* Money and prices are modelled as exact rationals (`ℚ`).
* Wall-clock timestamps are natural numbers counting microseconds since the
  Unix epoch (Python's `datetime.utcnow()` has microsecond resolution, and
  the epoch lies on a 5-minute boundary, so `minute`, `second` and
  `microsecond` are recovered by division/modulus).
* Python's module-level globals (`balance`, `positions`, `trades`,
  `current_market_id`, `market_end_time`) become the fields of
  `EngineState`, threaded explicitly.
* `enter_trade` returning `None` models the `EntryRejected` outcome; the
  `found := false` branch of `close_trade` models the `ValueError` that
  `positions.remove` raises on an untracked position, with every mutation
  the Python code performs before that point already applied.
-/

namespace PolyPaper

/-- The two mutually exclusive outcome sides of a binary market. -/
inductive Side
  | YES
  | NO
deriving DecidableEq

/-- An open simulated trade, mirroring the `pos` dict built in `enter_trade`. -/
structure Position where
  market_id : Option String
  side : Side
  entry_price : ℚ
  size : ℚ
  shares : ℚ
  entry_time : ℕ
  stop_loss : ℚ
  take_profit : ℚ
  current_price : ℚ
deriving DecidableEq

/-- A closed trade: the position's fields plus exit data, mirroring the
`record` dict built in `close_trade` (`{**pos, 'exit_price': …, 'pnl': …,
'reason': …}`). -/
structure TradeRecord where
  pos : Position
  exit_price : ℚ
  pnl : ℚ
  reason : String
deriving DecidableEq

/-- The module-level mutable globals of `src/main.py`. -/
structure EngineState where
  balance : ℚ
  positions : List Position
  trades : List TradeRecord
  current_market_id : Option String
  market_end_time : Option ℕ
deriving DecidableEq

-- ========== CONFIG (src/main.py lines 14-21) ==========

def INITIAL_BALANCE : ℚ := 100
def POSITION_SIZE : ℚ := 5
def MAX_CONCURRENT_POSITIONS : ℕ := 2
def ENTRY_PRICE : ℚ := 85/100
def ENTRY_TOLERANCE : ℚ := 2/1000
def STOP_LOSS : ℚ := 75/100
def TAKE_PROFIT : ℚ := 95/100
def MIN_SECONDS_TO_RESOLUTION : ℚ := 60

/-- The initial global state (src/main.py lines 27-31). -/
def init_state : EngineState :=
  { balance := INITIAL_BALANCE
    positions := []
    trades := []
    current_market_id := none
    market_end_time := none }

/-- Embeds `get_market_end_time` (src/main.py lines 53-60): `now` is in microseconds;
`now.second = now / 10^6 % 60`, `now.minute = now / (60·10^6) % 60`.  The
returned timestamp is `now` plus a whole number of seconds. -/
def get_market_end_time (now : ℕ) : ℕ :=
  let seconds := ((now / 1000000) % 60 + ((now / 60000000) % 60) * 60) % 300
  if seconds = 0 then
    now + 300 * 1000000
  else
    now + (300 - seconds) * 1000000

/-- Embeds `seconds_left` (src/main.py lines 62-65): `max 0` of the signed distance
to the stored deadline, in (fractional) seconds; `300` when no deadline has
been set. -/
def seconds_left (s : EngineState) (now : ℕ) : ℚ :=
  match s.market_end_time with
  | some e => max 0 (((e : ℚ) - (now : ℚ)) / 1000000)
  | none => 300

/-- Embeds `enter_trade` (src/main.py lines 68-85).  Returns the new position (or
`none` for the rejected case) together with the updated state.  The Python
parameter `secs` is accepted and ignored, exactly as in the source; `now`
supplies `datetime.utcnow()` for `entry_time`. -/
def enter_trade (s : EngineState) (now : ℕ) (side : Side) (price : ℚ)
    (secs : ℚ) : Option Position × EngineState :=
  if s.balance < POSITION_SIZE then
    (none, s)
  else
    let pos : Position :=
      { market_id := s.current_market_id
        side := side
        entry_price := price
        size := POSITION_SIZE
        shares := POSITION_SIZE / price
        entry_time := now
        stop_loss := STOP_LOSS
        take_profit := TAKE_PROFIT
        current_price := price }
    (some pos,
      { s with
          positions := s.positions ++ [pos]
          balance := s.balance - POSITION_SIZE })

/-- Outcome of `close_trade`: `found = false` models the `ValueError` raised
by `positions.remove(pos)` when `pos` is untracked; `state` is the global
state at that moment (the Python code has already mutated `balance` and
`trades` before the failing `remove`). -/
structure CloseResult where
  found : Bool
  record : TradeRecord
  state : EngineState
deriving DecidableEq

/-- Embeds `close_trade` (src/main.py lines 87-97), in the source's statement order:
compute `pnl`, credit `size + pnl` to the balance, append the record to
`trades`, then `positions.remove(pos)` (which removes the first occurrence,
or fails if there is none). -/
def close_trade (s : EngineState) (pos : Position) (exit_price : ℚ)
    (reason : String) : CloseResult :=
  let pnl : ℚ :=
    if pos.side = Side.YES then
      (exit_price - pos.entry_price) * pos.shares
    else
      (pos.entry_price - exit_price) * pos.shares
  let record : TradeRecord :=
    { pos := pos, exit_price := exit_price, pnl := pnl, reason := reason }
  let s1 : EngineState :=
    { s with
        balance := s.balance + pos.size + pnl
        trades := s.trades ++ [record] }
  if pos ∈ s.positions then
    { found := true, record := record,
      state := { s1 with positions := s1.positions.erase pos } }
  else
    { found := false, record := record, state := s1 }

/-- One price level of the order book; only `price` is read by the source. -/
structure BookLevel where
  price : ℚ
deriving DecidableEq

/-- A decoded feed message: an optional market identifier (the `'market'`
key) and an optional order book (present when both `'bids'` and `'asks'`
keys are, as `(bids, asks)`). -/
structure Message where
  market : Option String
  book : Option (List BookLevel × List BookLevel)
deriving DecidableEq

/-- The rollover branch of `on_message` (src/main.py lines 102-104): when
the message carries a market identifier different from the tracked one,
replace the identifier and recompute the deadline from the local clock. -/
def rollover_step (s : EngineState) (now : ℕ) (msg : Message) : EngineState :=
  match msg.market with
  | some m =>
      if s.current_market_id ≠ some m then
        { s with
            current_market_id := some m
            market_end_time := some (get_market_end_time now) }
      else s
  | none => s

/-- The ask-side entry attempt of `on_message` (src/main.py lines 110-111):
`if asks and abs(float(asks[0]['price']) - ENTRY_PRICE) <= ENTRY_TOLERANCE`. -/
def try_enter_yes (s : EngineState) (now : ℕ) (asks : List BookLevel)
    (secs : ℚ) : EngineState :=
  match asks.head? with
  | some a =>
      if |a.price - ENTRY_PRICE| ≤ ENTRY_TOLERANCE then
        (enter_trade s now Side.YES a.price secs).2
      else s
  | none => s

/-- The bid-side entry attempt of `on_message` (src/main.py lines 112-113). -/
def try_enter_no (s : EngineState) (now : ℕ) (bids : List BookLevel)
    (secs : ℚ) : EngineState :=
  match bids.head? with
  | some b =>
      if |b.price - ENTRY_PRICE| ≤ ENTRY_TOLERANCE then
        (enter_trade s now Side.NO b.price secs).2
      else s
  | none => s

/-- Embeds `on_message` (src/main.py lines 99-117): rollover detection, then the
entry gate `secs <= MIN_SECONDS_TO_RESOLUTION and len(positions) <
MAX_CONCURRENT_POSITIONS` checked once per message, then the ask-side and
bid-side entry attempts in that order (both using the same `secs`).  The
final `for pos in positions[:]` loop of the source only executes `pass`,
so it contributes nothing. -/
def on_message (s : EngineState) (now : ℕ) (msg : Message) : EngineState :=
  let s1 := rollover_step s now msg
  match msg.book with
  | none => s1
  | some (bids, asks) =>
      let secs := seconds_left s1 now
      if secs ≤ MIN_SECONDS_TO_RESOLUTION ∧
          s1.positions.length < MAX_CONCURRENT_POSITIONS then
        try_enter_no (try_enter_yes s1 now asks secs) now bids secs
      else s1

/-- Embeds `reset` (src/main.py lines 180-186): restore the balance, clear positions
and trades; `current_market_id` and `market_end_time` are untouched. -/
def reset (s : EngineState) : EngineState :=
  { s with balance := INITIAL_BALANCE, positions := [], trades := [] }

/-- Fold `on_message` over a list of `(now, message)` pairs. -/
def run_msgs (s : EngineState) (msgs : List (ℕ × Message)) : EngineState :=
  msgs.foldl (fun st p => on_message st p.1 p.2) s

/-- A ledger-level operation: an entry attempt, or a close of the `i`-th
currently open position. -/
inductive LedgerOp
  | enter (now : ℕ) (side : Side) (price : ℚ) (secs : ℚ)
  | close (i : ℕ) (exit_price : ℚ) (reason : String)

/-- Apply one ledger operation; a close whose index is out of range leaves
the state unchanged (the engine only ever closes positions it holds). -/
def apply_op (s : EngineState) (op : LedgerOp) : EngineState :=
  match op with
  | .enter now side price secs => (enter_trade s now side price secs).2
  | .close i exit_price reason =>
      match s.positions.get? i with
      | some pos => (close_trade s pos exit_price reason).state
      | none => s

/-- Fold a sequence of ledger operations from a starting state. -/
def run_ops (s : EngineState) (ops : List LedgerOp) : EngineState :=
  ops.foldl apply_op s

/-- Total staked size of a list of open positions. -/
def sum_sizes (l : List Position) : ℚ := (l.map Position.size).sum

/-- Total realized P&L of a list of trade records. -/
def sum_pnl (l : List TradeRecord) : ℚ := (l.map TradeRecord.pnl).sum

/-- The ledger conservation invariant of the spec. -/
def balance_invariant (s : EngineState) : Prop :=
  s.balance = INITIAL_BALANCE - sum_sizes s.positions + sum_pnl s.trades

-- ========== Concrete fixtures used by witnesses and counterexamples ==========

/-- A concrete "YES" position as `enter_trade` would build it from an ask of
0.851 (`shares = 5 / 0.851 = 5000/851`). -/
def wpos : Position :=
  { market_id := some ("A")
    side := Side.YES
    entry_price := 851/1000
    size := 5
    shares := 5000/851
    entry_time := 0
    stop_loss := 3/4
    take_profit := 19/20
    current_price := 851/1000 }

/-- A concrete "NO" position (bid 0.849, `shares = 5000/849`). -/
def wposNO : Position :=
  { market_id := some ("A")
    side := Side.NO
    entry_price := 849/1000
    size := 5
    shares := 5000/849
    entry_time := 0
    stop_loss := 3/4
    take_profit := 19/20
    current_price := 849/1000 }

/-- A state holding one open "YES" position and the matching balance. -/
def wstate : EngineState :=
  { balance := 95
    positions := [wpos]
    trades := []
    current_market_id := some ("A")
    market_end_time := some 300000000 }

/-- A state at the concurrency cap (two open positions) with ample cash. -/
def cap_state : EngineState :=
  { balance := 90
    positions := [wpos, wposNO]
    trades := []
    current_market_id := some ("A")
    market_end_time := some 300000000 }

-- ========== Theorems ==========

/-- Claim C9: `reset` restores the balance to the configured initial value,
empties the open-position set without crediting stakes back (the balance is
exactly the initial value no matter what was open), empties the trade
history, and is idempotent: resetting twice equals resetting once. -/
theorem reset_idempotent :
    ∀ s : EngineState,
      (reset s).balance = INITIAL_BALANCE ∧
      (reset s).positions = [] ∧
      (reset s).trades = [] ∧
      reset (reset s) = reset s := by
  intro s
  exact ⟨rfl, rfl, rfl, rfl⟩

/-- Claim C4, counterexample: closing an untracked position is NOT atomic.
Closing a position against the empty initial open set changes the balance
(the source credits `size + pnl` before the failing `positions.remove`),
refuting "on this error the ledger state is left unchanged". -/
theorem close_untracked_mutates :
    (close_trade init_state wpos (9/10) "manual").state.balance ≠
      init_state.balance := by
  simp [close_trade, init_state, wpos, INITIAL_BALANCE]
  norm_num

/-- Claim C4, amended: closing a position absent from the open set signals
an error (`found = false`, the `ValueError` of `positions.remove`) and never
silently succeeds, but the close is not atomic: the balance has already been
credited with `size + pnl` and the trade record appended; only the
open-position list is unchanged. -/
theorem close_untracked_error_effects
    (s : EngineState) (pos : Position) (p : ℚ) (r : String)
    (h : pos ∉ s.positions) :
    (close_trade s pos p r).found = false ∧
    (close_trade s pos p r).state.positions = s.positions ∧
    (close_trade s pos p r).state.balance =
      s.balance + pos.size + (close_trade s pos p r).record.pnl ∧
    (close_trade s pos p r).state.trades =
      s.trades ++ [(close_trade s pos p r).record] := by
  unfold close_trade
  rw [if_neg h]
  exact ⟨rfl, rfl, rfl, rfl⟩

/-- Witness for `close_untracked_error_effects` at a concrete input. -/
theorem close_untracked_error_effects_witness :
    (close_trade init_state wpos (9/10) "manual").found = false ∧
    (close_trade init_state wpos (9/10) "manual").state.positions =
      init_state.positions ∧
    (close_trade init_state wpos (9/10) "manual").state.balance =
      init_state.balance + wpos.size +
        (close_trade init_state wpos (9/10) "manual").record.pnl ∧
    (close_trade init_state wpos (9/10) "manual").state.trades =
      init_state.trades ++ [(close_trade init_state wpos (9/10) "manual").record] :=
  close_untracked_error_effects init_state wpos (9/10) "manual"
    (by simp [init_state])

/-- Claim C5, counterexample: with the open-position count at the configured
maximum and ample cash, `enter_trade` does NOT reject and DOES mutate the
state, refuting "returns EntryRejected exactly when available cash < size or
the count equals the maximum" (the cap is never checked inside the open
operation). -/
theorem enter_at_cap_succeeds :
    cap_state.positions.length = MAX_CONCURRENT_POSITIONS ∧
    ¬ cap_state.balance < POSITION_SIZE ∧
    (enter_trade cap_state 0 Side.YES (85/100) 30).1 ≠ none ∧
    (enter_trade cap_state 0 Side.YES (85/100) 30).2.positions.length =
      MAX_CONCURRENT_POSITIONS + 1 := by
  refine ⟨rfl, by norm_num [cap_state, POSITION_SIZE], ?_, ?_⟩
  · norm_num [enter_trade, cap_state, POSITION_SIZE]
    exact fun h => Option.noConfusion h
  · norm_num [enter_trade, cap_state, POSITION_SIZE, MAX_CONCURRENT_POSITIONS]

/-- Claim C5, amended: `enter_trade` rejects (returns `none`) exactly when
the balance is below the position size — the concurrency cap is enforced
only by the caller, once per quote, not inside the open operation.  In the
rejected case nothing is mutated; on success it debits the size, appends
exactly one new position whose share count is `size / price`, increases the
open count by one, and returns that position. -/
theorem enter_trade_contract
    (s : EngineState) (now : ℕ) (side : Side) (price : ℚ) (secs : ℚ) :
    ((enter_trade s now side price secs).1 = none ↔
      s.balance < POSITION_SIZE) ∧
    (s.balance < POSITION_SIZE → (enter_trade s now side price secs).2 = s) ∧
    (¬ s.balance < POSITION_SIZE →
      ∃ pos : Position,
        (enter_trade s now side price secs).1 = some pos ∧
        (enter_trade s now side price secs).2.positions =
          s.positions ++ [pos] ∧
        (enter_trade s now side price secs).2.balance =
          s.balance - POSITION_SIZE ∧
        (enter_trade s now side price secs).2.positions.length =
          s.positions.length + 1 ∧
        pos.shares = POSITION_SIZE / price ∧
        pos.size = POSITION_SIZE ∧
        pos.side = side ∧
        pos.entry_price = price) := by
  by_cases hb : s.balance < POSITION_SIZE
  · refine ⟨?_, fun _ => ?_, fun hc => absurd hb hc⟩
    · simp [enter_trade, hb]
    · simp [enter_trade, hb]
  · refine ⟨?_, fun hc => absurd hc hb, fun _ => ?_⟩
    · simp [enter_trade, hb]
    · refine
        ⟨{ market_id := s.current_market_id
           side := side
           entry_price := price
           size := POSITION_SIZE
           shares := POSITION_SIZE / price
           entry_time := now
           stop_loss := STOP_LOSS
           take_profit := TAKE_PROFIT
           current_price := price },
          ?_, ?_, ?_, ?_, rfl, rfl, rfl, rfl⟩ <;>
      simp [enter_trade, hb]

/-- Witness for `enter_trade_contract` at a concrete input. -/
theorem enter_trade_contract_witness :
    ((enter_trade init_state 0 Side.YES (85/100) 30).1 = none ↔
      init_state.balance < POSITION_SIZE) ∧
    (init_state.balance < POSITION_SIZE →
      (enter_trade init_state 0 Side.YES (85/100) 30).2 = init_state) ∧
    (¬ init_state.balance < POSITION_SIZE →
      ∃ pos : Position,
        (enter_trade init_state 0 Side.YES (85/100) 30).1 = some pos ∧
        (enter_trade init_state 0 Side.YES (85/100) 30).2.positions =
          init_state.positions ++ [pos] ∧
        (enter_trade init_state 0 Side.YES (85/100) 30).2.balance =
          init_state.balance - POSITION_SIZE ∧
        (enter_trade init_state 0 Side.YES (85/100) 30).2.positions.length =
          init_state.positions.length + 1 ∧
        pos.shares = POSITION_SIZE / (85/100) ∧
        pos.size = POSITION_SIZE ∧
        pos.side = Side.YES ∧
        pos.entry_price = 85/100) :=
  enter_trade_contract init_state 0 Side.YES (85/100) 30

/-- Claim C6: closing an open position computes
`pnl = (exit − entry) × shares` for "YES" and `(entry − exit) × shares` for
"NO", credits `size + pnl` back to the balance, and the resulting P&L is
positive for a "YES" closed above its entry and for a "NO" closed below its
entry (given positive share count). -/
theorem close_pnl_correct
    (s : EngineState) (pos : Position) (p : ℚ) (r : String)
    (hmem : pos ∈ s.positions) :
    (close_trade s pos p r).record.pnl =
      (if pos.side = Side.YES then (p - pos.entry_price) * pos.shares
       else (pos.entry_price - p) * pos.shares) ∧
    (close_trade s pos p r).state.balance =
      s.balance + pos.size + (close_trade s pos p r).record.pnl ∧
    (pos.side = Side.YES → 0 < pos.shares → pos.entry_price < p →
      0 < (close_trade s pos p r).record.pnl) ∧
    (pos.side = Side.NO → 0 < pos.shares → p < pos.entry_price →
      0 < (close_trade s pos p r).record.pnl) := by
  unfold close_trade
  rw [if_pos hmem]
  refine ⟨rfl, rfl, ?_, ?_⟩
  · intro hside hsh hlt
    simp only [hside, if_pos rfl]
    exact mul_pos (sub_pos.mpr hlt) hsh
  · intro hside hsh hlt
    have hne : pos.side ≠ Side.YES := by rw [hside]; intro hc; cases hc
    simp only [if_neg hne]
    exact mul_pos (sub_pos.mpr hlt) hsh

/-- Witness for `close_pnl_correct`: the open "YES" position of `wstate`
closed at 0.96 (take-profit). -/
theorem close_pnl_correct_witness :
    (close_trade wstate wpos (24/25) "take-profit").record.pnl =
      (if wpos.side = Side.YES then (24/25 - wpos.entry_price) * wpos.shares
       else (wpos.entry_price - 24/25) * wpos.shares) ∧
    (close_trade wstate wpos (24/25) "take-profit").state.balance =
      wstate.balance + wpos.size +
        (close_trade wstate wpos (24/25) "take-profit").record.pnl ∧
    (wpos.side = Side.YES → 0 < wpos.shares → wpos.entry_price < 24/25 →
      0 < (close_trade wstate wpos (24/25) "take-profit").record.pnl) ∧
    (wpos.side = Side.NO → 0 < wpos.shares → 24/25 < wpos.entry_price →
      0 < (close_trade wstate wpos (24/25) "take-profit").record.pnl) :=
  close_pnl_correct wstate wpos (24/25) "take-profit" (by simp [wstate])

-- ========== Helper lemmas ==========

lemma sum_sizes_append (l : List Position) (p : Position) :
    sum_sizes (l ++ [p]) = sum_sizes l + p.size := by
  simp [sum_sizes]

lemma sum_pnl_append (l : List TradeRecord) (t : TradeRecord) :
    sum_pnl (l ++ [t]) = sum_pnl l + t.pnl := by
  simp [sum_pnl]

lemma sum_sizes_erase {l : List Position} {pos : Position} (h : pos ∈ l) :
    sum_sizes (l.erase pos) = sum_sizes l - pos.size := by
  have hp := List.perm_cons_erase h
  have hs := (hp.map Position.size).sum_eq
  simp only [List.map_cons, List.sum_cons] at hs
  unfold sum_sizes
  linarith

lemma enter_trade_invariant (s : EngineState) (now : ℕ) (side : Side)
    (price : ℚ) (secs : ℚ) (h : balance_invariant s) :
    balance_invariant (enter_trade s now side price secs).2 := by
  unfold balance_invariant at h ⊢
  unfold enter_trade
  split
  · exact h
  · simp only [sum_sizes_append]
    simp only [sum_sizes, sum_pnl] at h ⊢
    linarith

lemma close_trade_invariant (s : EngineState) (pos : Position) (p : ℚ)
    (r : String) (hmem : pos ∈ s.positions) (h : balance_invariant s) :
    balance_invariant (close_trade s pos p r).state := by
  unfold balance_invariant at h ⊢
  simp only [close_trade, if_pos hmem]
  rw [sum_sizes_erase hmem, sum_pnl_append]
  linarith

lemma apply_op_invariant (s : EngineState) (op : LedgerOp)
    (h : balance_invariant s) : balance_invariant (apply_op s op) := by
  cases op with
  | enter now side price secs => exact enter_trade_invariant s now side price secs h
  | close i p r =>
      unfold apply_op
      dsimp only
      cases hg : s.positions.get? i with
      | none => simp only [hg]; exact h
      | some pos =>
          simp only [hg]
          exact close_trade_invariant s pos p r (List.get?_mem hg) h

lemma run_ops_invariant (ops : List LedgerOp) :
    ∀ s : EngineState, balance_invariant s → balance_invariant (run_ops s ops) := by
  induction ops with
  | nil => intro s h; exact h
  | cons op rest ih =>
      intro s h
      exact ih (apply_op s op) (apply_op_invariant s op h)

/-- Claim C1: for any sequence of opens and closes starting from the initial
state, the balance equals the initial balance minus the total staked size of
the currently open positions plus the total realized P&L of all closed
trades.  (Every prefix of a sequence is itself a sequence, so the invariant
holds after every operation.) -/
theorem balance_conservation :
    ∀ ops : List LedgerOp, balance_invariant (run_ops init_state ops) := by
  intro ops
  refine run_ops_invariant ops init_state ?_
  simp [balance_invariant, init_state, sum_sizes, sum_pnl]

-- ========== Position-count lemmas ==========

lemma enter_trade_length (s : EngineState) (now : ℕ) (side : Side)
    (price : ℚ) (secs : ℚ) :
    (enter_trade s now side price secs).2.positions.length ≤
      s.positions.length + 1 := by
  unfold enter_trade
  split <;> simp

lemma try_enter_yes_length (s : EngineState) (now : ℕ)
    (asks : List BookLevel) (secs : ℚ) :
    (try_enter_yes s now asks secs).positions.length ≤
      s.positions.length + 1 := by
  unfold try_enter_yes
  cases h : asks.head? with
  | none => simp
  | some a =>
      by_cases hp : |a.price - ENTRY_PRICE| ≤ ENTRY_TOLERANCE
      · simpa [hp] using enter_trade_length s now Side.YES a.price secs
      · simp [hp]

lemma try_enter_no_length (s : EngineState) (now : ℕ)
    (bids : List BookLevel) (secs : ℚ) :
    (try_enter_no s now bids secs).positions.length ≤
      s.positions.length + 1 := by
  unfold try_enter_no
  cases h : bids.head? with
  | none => simp
  | some b =>
      by_cases hp : |b.price - ENTRY_PRICE| ≤ ENTRY_TOLERANCE
      · simpa [hp] using enter_trade_length s now Side.NO b.price secs
      · simp [hp]

lemma rollover_step_frame (s : EngineState) (now : ℕ) (msg : Message) :
    (rollover_step s now msg).positions = s.positions ∧
    (rollover_step s now msg).balance = s.balance ∧
    (rollover_step s now msg).trades = s.trades := by
  unfold rollover_step
  rcases msg with ⟨mk, bk⟩
  cases mk with
  | none => exact ⟨rfl, rfl, rfl⟩
  | some m =>
      dsimp only
      split <;> exact ⟨rfl, rfl, rfl⟩

lemma on_message_length (s : EngineState) (now : ℕ) (msg : Message) :
    (on_message s now msg).positions.length ≤
      max s.positions.length (MAX_CONCURRENT_POSITIONS + 1) := by
  unfold on_message
  have hro := (rollover_step_frame s now msg).1
  rcases msg with ⟨mk, bk⟩
  cases bk with
  | none =>
      dsimp only
      rw [hro]
      exact le_max_left _ _
  | some b =>
      obtain ⟨bids, asks⟩ := b
      dsimp only
      split
      · rename_i hcond
        have h1 := try_enter_yes_length (rollover_step s now ⟨mk, some (bids, asks)⟩)
          now asks (seconds_left (rollover_step s now ⟨mk, some (bids, asks)⟩) now)
        have h2 := try_enter_no_length
          (try_enter_yes (rollover_step s now ⟨mk, some (bids, asks)⟩) now asks
            (seconds_left (rollover_step s now ⟨mk, some (bids, asks)⟩) now))
          now bids (seconds_left (rollover_step s now ⟨mk, some (bids, asks)⟩) now)
        have h3 := hcond.2
        rw [hro] at h3
        rw [hro] at h1
        omega
      · rw [hro]
        exact le_max_left _ _

/-- Claim C2, amended: the concurrency cap is checked once per quote message
(before the ask-side entry) and not re-checked before the bid-side entry, so
a single quote qualifying on both sides can push the open-position count one
past the configured maximum; for any sequence of feed messages from the
initial state the count never exceeds `MAX_CONCURRENT_POSITIONS + 1`. -/
theorem open_positions_le_max_succ :
    ∀ msgs : List (ℕ × Message),
      (run_msgs init_state msgs).positions.length ≤
        MAX_CONCURRENT_POSITIONS + 1 := by
  have key : ∀ (msgs : List (ℕ × Message)) (s : EngineState),
      s.positions.length ≤ MAX_CONCURRENT_POSITIONS + 1 →
      (run_msgs s msgs).positions.length ≤ MAX_CONCURRENT_POSITIONS + 1 := by
    intro msgs
    induction msgs with
    | nil => intro s h; exact h
    | cons p rest ih =>
        intro s h
        have hstep := on_message_length s p.1 p.2
        exact ih (on_message s p.1 p.2) (by omega)
  intro msgs
  exact key msgs init_state (by simp [init_state])

-- ========== Concrete feed messages ==========

/-- A pure rollover notice for market "A". -/
def msg_roll : Message := ⟨some ("A"), none⟩

/-- A quote with no bids and a single ask at the target entry price 0.85. -/
def msg_ask : Message := ⟨none, some ([], [⟨85/100⟩])⟩

/-- A quote with both best bid and best ask at the target entry price. -/
def msg_both : Message := ⟨none, some ([⟨85/100⟩], [⟨85/100⟩])⟩

/-- The state after the first rollover notice at time 0. -/
def stateA : EngineState :=
  { balance := 100
    positions := []
    trades := []
    current_market_id := some ("A")
    market_end_time := some 300000000 }

/-- The "YES" position opened from an ask of 0.85 at time 240 s. -/
def pos_b : Position :=
  { market_id := some ("A")
    side := Side.YES
    entry_price := 17/20
    size := 5
    shares := 100/17
    entry_time := 240000000
    stop_loss := 3/4
    take_profit := 19/20
    current_price := 17/20 }

/-- The "NO" position opened from a bid of 0.85 at time 240 s. -/
def pos_n : Position :=
  { market_id := some ("A")
    side := Side.NO
    entry_price := 17/20
    size := 5
    shares := 100/17
    entry_time := 240000000
    stop_loss := 3/4
    take_profit := 19/20
    current_price := 17/20 }

/-- The state after the ask-only quote: one open position. -/
def stateB : EngineState :=
  { balance := 95
    positions := [pos_b]
    trades := []
    current_market_id := some ("A")
    market_end_time := some 300000000 }

/-- The state after the both-sides quote: three open positions. -/
def stateC : EngineState :=
  { balance := 85
    positions := [pos_b, pos_b, pos_n]
    trades := []
    current_market_id := some ("A")
    market_end_time := some 300000000 }

lemma cap_trace_step1 : on_message init_state 0 msg_roll = stateA := by
  simp [on_message, rollover_step, msg_roll, init_state, stateA,
    get_market_end_time, INITIAL_BALANCE]

lemma cap_trace_step2 : on_message stateA 240000000 msg_ask = stateB := by
  norm_num [on_message, rollover_step, msg_ask, stateA, stateB, seconds_left,
    try_enter_yes, try_enter_no, enter_trade, MIN_SECONDS_TO_RESOLUTION,
    MAX_CONCURRENT_POSITIONS, ENTRY_PRICE, ENTRY_TOLERANCE, POSITION_SIZE,
    pos_b, STOP_LOSS, TAKE_PROFIT, max_def]

lemma cap_trace_step3 : on_message stateB 240000000 msg_both = stateC := by
  norm_num [on_message, rollover_step, msg_both, stateB, stateC, seconds_left,
    try_enter_yes, try_enter_no, enter_trade, MIN_SECONDS_TO_RESOLUTION,
    MAX_CONCURRENT_POSITIONS, ENTRY_PRICE, ENTRY_TOLERANCE, POSITION_SIZE,
    pos_b, pos_n, STOP_LOSS, TAKE_PROFIT, max_def]

/-- Claim C2, counterexample: from the initial state, a rollover notice at
time 0, an ask-only qualifying quote at 240 s (one position opens), then a
single quote qualifying on both sides, leave THREE open positions — the
once-per-quote cap check (`len(positions) < MAX_CONCURRENT_POSITIONS`,
evaluated with one position open) admits both side entries, so the count
exceeds the configured maximum of 2. -/
theorem cap_exceeded_by_double_entry :
    MAX_CONCURRENT_POSITIONS <
      (run_msgs init_state
        [(0, msg_roll), (240000000, msg_ask), (240000000, msg_both)]).positions.length := by
  have h : run_msgs init_state
      [(0, msg_roll), (240000000, msg_ask), (240000000, msg_both)] = stateC := by
    simp only [run_msgs, List.foldl]
    rw [cap_trace_step1, cap_trace_step2, cap_trace_step3]
  rw [h]
  simp [stateC, MAX_CONCURRENT_POSITIONS]

/-- A quote whose best ask (0.96) is above the take-profit threshold of the
open "YES" position in `wstate`. -/
def msg_tp : Message := ⟨none, some ([], [⟨24/25⟩])⟩

/-- Claim C3, failing input: `wstate` holds an open "YES" position with
take-profit 0.95, and the next quote's best ask is 0.96 ≥ 0.95 at a time
inside the market window, so the claim requires the position to be closed
with reason "take-profit" (and its last-observed price updated).  The
source's per-position loop is a no-op (`pass`), so `on_message` returns the
state completely unchanged: the position stays open, its `current_price` is
not updated, and no trade record is produced. -/
theorem exit_logic_noop :
    wpos ∈ wstate.positions ∧
    wpos.side = Side.YES ∧
    wpos.take_profit ≤ 24/25 ∧
    on_message wstate 290000000 msg_tp = wstate := by
  refine ⟨by simp [wstate], rfl, by norm_num [wpos], ?_⟩
  norm_num [on_message, rollover_step, msg_tp, wstate, seconds_left,
    try_enter_yes, try_enter_no, enter_trade, MIN_SECONDS_TO_RESOLUTION,
    MAX_CONCURRENT_POSITIONS, ENTRY_PRICE, ENTRY_TOLERANCE, POSITION_SIZE,
    max_def]
  rw [abs_of_pos (by norm_num : (0:ℚ) < 11/100)]
  norm_num

-- ========== Clock/Window Tracker lemmas ==========

lemma mod300_of_minsec (q : ℕ) :
    (q % 60 + (q / 60) % 60 * 60) % 300 = q % 300 := by
  omega

lemma get_market_end_time_bounds (now : ℕ) :
    now < get_market_end_time now ∧
    get_market_end_time now ≤ now + 300000000 := by
  unfold get_market_end_time
  dsimp only
  split <;> omega

/-- Claim C7, counterexample: at `now` = 0.5 s past a 5-minute boundary
(500000 µs), the computed deadline is 300.5 s — its sub-second component is
`now`'s 500000 µs, not zero, so the result is not aligned to an absolute
wall-clock boundary. -/
theorem deadline_subsecond_nonzero :
    get_market_end_time 500000 = 300500000 ∧
    get_market_end_time 500000 % 1000000 ≠ 0 := by
  constructor <;> norm_num [get_market_end_time]

/-- Claim C7, amended: the deadline's whole-second part is aligned to an
absolute 5-minute boundary (its total seconds are a multiple of 300), but
its sub-second component is carried over from `now` rather than being zero;
the deadline is strictly after `now` and at most 300 seconds after it (and
the function is trivially deterministic in `now`). -/
theorem deadline_alignment :
    ∀ now : ℕ,
      get_market_end_time now % 1000000 = now % 1000000 ∧
      (get_market_end_time now / 1000000) % 300 = 0 ∧
      now < get_market_end_time now ∧
      get_market_end_time now ≤ now + 300000000 := by
  intro now
  have hb := get_market_end_time_bounds now
  refine ⟨?_, ?_, hb.1, hb.2⟩
  · unfold get_market_end_time
    dsimp only
    split <;> rw [Nat.add_mul_mod_self_right]
  · unfold get_market_end_time
    dsimp only
    have h1 : now / 60000000 = now / 1000000 / 60 := by
      rw [Nat.div_div_eq_div_mul]
    rw [h1, mod300_of_minsec]
    split <;> rename_i h <;>
      rw [Nat.add_mul_div_right _ _ (by norm_num : 0 < 1000000)] <;> omega

/-- Claim C8: processing a rollover notice (a message carrying a market
identifier different from the tracked one, with no book data) replaces the
tracked identifier, recomputes the deadline from the local clock so that
`seconds_left` is immediately positive and at most 300, and leaves the
balance, the open positions (hence each position's original market
identifier) and the trade history unchanged. -/
theorem rollover_effects (s : EngineState) (now : ℕ) (m : String)
    (h : s.current_market_id ≠ some m) :
    (on_message s now ⟨some m, none⟩).current_market_id = some m ∧
    (on_message s now ⟨some m, none⟩).market_end_time =
      some (get_market_end_time now) ∧
    (on_message s now ⟨some m, none⟩).balance = s.balance ∧
    (on_message s now ⟨some m, none⟩).positions = s.positions ∧
    (on_message s now ⟨some m, none⟩).trades = s.trades ∧
    0 < seconds_left (on_message s now ⟨some m, none⟩) now ∧
    seconds_left (on_message s now ⟨some m, none⟩) now ≤ 300 := by
  have hred : on_message s now ⟨some m, none⟩ =
      { s with
          current_market_id := some m
          market_end_time := some (get_market_end_time now) } := by
    simp [on_message, rollover_step, h]
  rw [hred]
  have hb := get_market_end_time_bounds now
  have hsl : seconds_left
      ({ s with
          current_market_id := some m
          market_end_time := some (get_market_end_time now) }) now =
      max 0 (((get_market_end_time now : ℚ) - (now : ℚ)) / 1000000) := rfl
  refine ⟨rfl, rfl, rfl, rfl, rfl, ?_, ?_⟩
  · rw [hsl]
    have hlt : (now : ℚ) < (get_market_end_time now : ℚ) := by
      exact_mod_cast hb.1
    have hpos : 0 < ((get_market_end_time now : ℚ) - (now : ℚ)) / 1000000 :=
      div_pos (by linarith) (by norm_num)
    exact lt_max_iff.mpr (Or.inr hpos)
  · rw [hsl]
    have hle : (get_market_end_time now : ℚ) ≤ (now : ℚ) + 300000000 := by
      exact_mod_cast hb.2
    refine max_le (by norm_num) ?_
    rw [div_le_iff₀ (by norm_num : (0:ℚ) < 1000000)]
    linarith

/-- Witness for `rollover_effects`: the first rollover from the initial
state at time 0. -/
theorem rollover_effects_witness :
    (on_message init_state 0 ⟨some ("A"), none⟩).current_market_id = some ("A") ∧
    (on_message init_state 0 ⟨some ("A"), none⟩).market_end_time =
      some (get_market_end_time 0) ∧
    (on_message init_state 0 ⟨some ("A"), none⟩).balance = init_state.balance ∧
    (on_message init_state 0 ⟨some ("A"), none⟩).positions = init_state.positions ∧
    (on_message init_state 0 ⟨some ("A"), none⟩).trades = init_state.trades ∧
    0 < seconds_left (on_message init_state 0 ⟨some ("A"), none⟩) 0 ∧
    seconds_left (on_message init_state 0 ⟨some ("A"), none⟩) 0 ≤ 300 :=
  rollover_effects init_state 0 ("A") (by simp [init_state])

/-- Claim C10: while no window deadline has been set, `seconds_left` reports
the constant 300, which strictly exceeds the 60-second entry window, so a
quote arriving before the feed first reports a market identifier opens no
position and leaves the whole state unchanged. -/
theorem no_entry_before_first_market (s : EngineState) (now : ℕ) (msg : Message)
    (h1 : s.market_end_time = none) (h2 : msg.market = none) :
    seconds_left s now = 300 ∧
    MIN_SECONDS_TO_RESOLUTION < seconds_left s now ∧
    on_message s now msg = s := by
  have hsl : seconds_left s now = 300 := by
    unfold seconds_left
    rw [h1]
  refine ⟨hsl, by rw [hsl]; norm_num [MIN_SECONDS_TO_RESOLUTION], ?_⟩
  have hro : rollover_step s now msg = s := by
    unfold rollover_step
    rw [h2]
  unfold on_message
  rw [hro]
  cases hbk : msg.book with
  | none => rfl
  | some b =>
      obtain ⟨bids, asks⟩ := b
      dsimp only
      rw [hsl, if_neg]
      intro hc
      have := hc.1
      norm_num [MIN_SECONDS_TO_RESOLUTION] at this

/-- Witness for `no_entry_before_first_market`: a quote qualifying on both
sides, arriving at the initial state, changes nothing. -/
theorem no_entry_before_first_market_witness :
    seconds_left init_state 0 = 300 ∧
    MIN_SECONDS_TO_RESOLUTION < seconds_left init_state 0 ∧
    on_message init_state 0 msg_both = init_state :=
  no_entry_before_first_market init_state 0 msg_both rfl rfl

end PolyPaper
